import Mathlib

/-!
Verification of the DistPy compiler driver (`dpy/compiler/ui.py`).

The driver is shallowly embedded: external collaborators (the parser, the
Python generator, the pretty-printer, the pseudocode renderer, the
incremental-module generator, and the debug-level utilities) are fields of an
abstract environment `Env`; the driver's observable behaviour (stderr
messages, parser invocations and file writes) is recorded as a list of
`Effect`s, in program order.
-/

namespace DistPy

/-- Stand-in for a DistPy AST value produced by the external parser. -/
structure DpyAst where
  id : Nat
deriving DecidableEq, Repr

/-- Stand-in for a Python AST value produced by an external generator. -/
structure PyAst where
  id : Nat
deriving DecidableEq, Repr

/-- Result of `Parser(filename)` followed by `dt.visit`: the error counter,
the warning counter, and the program AST (`dt.program`). -/
structure ParseOutcome where
  errcnt : Nat
  warncnt : Nat
  program : DpyAst
deriving DecidableEq, Repr

/-- The result of `argparse` in `main`: one field per `add_argument` call. -/
structure Args where
  outfile : Option String
  debug : Option String
  genpsd : Bool
  geninc : Bool
  notable1 : Bool
  notable2 : Bool
  notable3 : Bool
  jbstyle : Bool
  noalltables : Bool
  psdfile : Option String
  infile : String
deriving DecidableEq, Repr

/-- Abstract environment of external collaborators.

`parse` models `Parser(filename)` plus `dt.visit(pytree)`; `pygen` models
`PythonGenerator(filename).visit(dpyast)` (which may return `None`);
`to_source` and `to_pseudo` model the pretty-printer and pseudocode renderer
(`to_pseudo` receives exactly what `ui.py` passes it, which may be `None`);
`gen_inc_module` models `gen_inc_module(dpyast, args.__dict__)` returning the
pair `(inc, ast)`.

Modelled from the spec: `is_valid_debug_level` (from `dpy/compiler/utils.py`,
not present under `src/`) validates a level "against a recognized range";
the range itself is left abstract. `version_info` models
`sys.version_info` as the list of its numeric components
(major, minor, micro, ...). -/
structure Env where
  parse : String → ParseOutcome
  pygen : String → DpyAst → Option PyAst
  to_source : PyAst → String
  to_pseudo : Option DpyAst → String
  gen_inc_module : DpyAst → Args → PyAst × PyAst
  is_valid_debug_level : Int → Bool
  version_info : List Nat

/-- One observable step of the driver: a write to stderr, an invocation of
the external parser, or a file write (path, contents). -/
inductive Effect where
  | stderrMsg (msg : String)
  | parseCall (filename : String)
  | fileWrite (path : String) (contents : String)
deriving DecidableEq, Repr

/-- The files written by a list of effects, in order. -/
def filesWritten (effs : List Effect) : List (String × String) :=
  effs.filterMap fun e =>
    match e with
    | .fileWrite p c => some (p, c)
    | _ => none

/-- The parser invocations recorded by a list of effects. -/
def parseCalls (effs : List Effect) : List String :=
  effs.filterMap fun e =>
    match e with
    | .parseCall f => some f
    | _ => none

/-- Helper for `rpartition`: `some (before, after)` splits the list at its
LAST occurrence of `sep`; `none` when `sep` does not occur. -/
def rpartitionAux (sep : Char) : List Char → Option (List Char × List Char)
  | [] => none
  | c :: rest =>
    match rpartitionAux sep rest with
    | some (b, a) => some (c :: b, a)
    | none => if c = sep then some ([], rest) else none

/-- Python's `str.rpartition(sep)` for a one-character separator: splits at
the last occurrence of `sep`, returning `(head, sep, tail)`; when `sep` is
absent, returns `("", "", s)`. -/
def rpartition (s : String) (sep : Char) : String × String × String :=
  match rpartitionAux sep s.data with
  | some (b, a) => (String.mk b, String.mk [sep], String.mk a)
  | none => ("", "", s)

/-- The suffix-splitting prologue shared verbatim by `dpyfile_to_pseudofile`,
`dpyfile_to_pyfile` and `dpyfile_to_incfiles`:
`purename, _, suffix = filename.rpartition(".")` followed by
`if len(purename) == 0: purename = suffix; suffix = ""`. -/
def splitFilename (filename : String) : String × String :=
  let p := rpartition filename '.'
  let purename := p.1
  let suffix := p.2.2
  if purename.length = 0 then (suffix, "") else (purename, suffix)

/-- Message `"%s compiled with %d errors and %d warnings.\n"`. -/
def compiledCountMsg (filename : String) (e w : Nat) : String :=
  filename ++ " compiled with " ++ toString e ++ " errors and "
    ++ toString w ++ " warnings.\n"

/-- Message `"Error: unable to generate DistPy AST for file %s\n"`. -/
def noDpyAstMsg (filename : String) : String :=
  "Error: unable to generate DistPy AST for file " ++ filename ++ "\n"

/-- Message `"Error: unable to generate Python AST for file %s\n"`. -/
def noPyAstMsg (filename : String) : String :=
  "Error: unable to generate Python AST for file " ++ filename ++ "\n"

/-- Message `"Warning: skipping '.py' file %s\n"`. -/
def skipPyMsg (filename : String) : String :=
  "Warning: skipping \x27.py\x27 file " ++ filename ++ "\n"

/-- Message `"Warning: unknown suffix '%s' in filename '%s'\n"`. -/
def unknownSuffixMsg (suffix filename : String) : String :=
  "Warning: unknown suffix \x27" ++ suffix ++ "\x27 in filename \x27"
    ++ filename ++ "\x27\n"

/-- Message `"Written pseudo code file %s.\n"`. -/
def writtenPseudoMsg (outname : String) : String :=
  "Written pseudo code file " ++ outname ++ ".\n"

/-- Message `"Written compiled file %s.\n"`. -/
def writtenCompiledMsg (outname : String) : String :=
  "Written compiled file " ++ outname ++ ".\n"

/-- Message `"Written interface file %s.\n"`. -/
def writtenInterfaceMsg (filename : String) : String :=
  "Written interface file " ++ filename ++ ".\n"

/-- Message `"Invalid debugging level %s.\n"`. -/
def invalidDebugMsg (token : String) : String :=
  "Invalid debugging level " ++ token ++ ".\n"

/-- Model of `dpyast_from_file(filename)`: invokes the parser, always reports the
error/warning counts, and returns the AST iff `errcnt == 0` (else `None`). -/
def dpyast_from_file (env : Env) (filename : String) :
    Option DpyAst × List Effect :=
  let dt := env.parse filename
  let effs := [Effect.parseCall filename,
               Effect.stderrMsg (compiledCountMsg filename dt.errcnt dt.warncnt)]
  if dt.errcnt = 0 then (some dt.program, effs) else (none, effs)

/-- Model of `dpyfile_to_pyast(filename)`: DistPy AST, then Python AST, with an error
message and `None` on either stage's failure. -/
def dpyfile_to_pyast (env : Env) (filename : String) :
    Option PyAst × List Effect :=
  let r := dpyast_from_file env filename
  match r.1 with
  | none => (none, r.2 ++ [Effect.stderrMsg (noDpyAstMsg filename)])
  | some d =>
    match env.pygen filename d with
    | none => (none, r.2 ++ [Effect.stderrMsg (noPyAstMsg filename)])
    | some p => (some p, r.2)

/-- Model of `dpyfile_to_pseudofile(filename, outname=None)`: suffix checks, parse,
pseudocode rendering (no null-check on the AST), and an unconditional write
to `outname` or `purename + ".da"`. -/
def dpyfile_to_pseudofile (env : Env) (filename : String)
    (outname : Option String) : List Effect :=
  let s := splitFilename filename
  let purename := s.1
  let suffix := s.2
  if suffix = "py" then
    [Effect.stderrMsg (skipPyMsg filename)]
  else
    let warnEffs :=
      if suffix ≠ "dpy" then [Effect.stderrMsg (unknownSuffixMsg suffix filename)]
      else []
    let r := dpyast_from_file env filename
    let psdstr := env.to_pseudo r.1
    let out := outname.getD (purename ++ ".da")
    warnEffs ++ r.2 ++
      [Effect.fileWrite out psdstr, Effect.stderrMsg (writtenPseudoMsg out)]

/-- Model of `dpyfile_to_pyfile(filename, outname=None)`: suffix checks, translation
through `dpyfile_to_pyast`, and a write to `outname` or `purename + ".py"`
only when the Python AST is not `None`. -/
def dpyfile_to_pyfile (env : Env) (filename : String)
    (outname : Option String) : List Effect :=
  let s := splitFilename filename
  let purename := s.1
  let suffix := s.2
  if suffix = "py" then
    [Effect.stderrMsg (skipPyMsg filename)]
  else
    let warnEffs :=
      if suffix ≠ "dpy" then [Effect.stderrMsg (unknownSuffixMsg suffix filename)]
      else []
    let r := dpyfile_to_pyast env filename
    match r.1 with
    | none => warnEffs ++ r.2
    | some p =>
      let pystr := env.to_source p
      let out := outname.getD (purename ++ ".py")
      warnEffs ++ r.2 ++
        [Effect.fileWrite out pystr, Effect.stderrMsg (writtenCompiledMsg out)]

/-- Model of `dpyfile_to_incfiles(args)`: suffix checks, parse, and — when the AST is
not `None` — incremental-module generation followed by two writes: the
primary artifact to `args.outfile` or `purename + ".py"`, and the interface
module to `purename + "_inc" + ".py"`. -/
def dpyfile_to_incfiles (env : Env) (args : Args) : List Effect :=
  let filename := args.infile
  let outname := args.outfile
  let s := splitFilename filename
  let purename := s.1
  let suffix := s.2
  if suffix = "py" then
    [Effect.stderrMsg (skipPyMsg filename)]
  else
    let warnEffs :=
      if suffix ≠ "dpy" then [Effect.stderrMsg (unknownSuffixMsg suffix filename)]
      else []
    let r := dpyast_from_file env filename
    let module_filename := purename ++ "_inc" ++ ".py"
    match r.1 with
    | none => warnEffs ++ r.2
    | some d =>
      let g := env.gen_inc_module d args
      let incstr := env.to_source g.1
      let aststr := env.to_source g.2
      let out := outname.getD (purename ++ ".py")
      warnEffs ++ r.2 ++
        [Effect.fileWrite out aststr,
         Effect.stderrMsg (writtenCompiledMsg out),
         Effect.fileWrite module_filename incstr,
         Effect.stderrMsg (writtenInterfaceMsg module_filename)]

/-- Python tuple `<` on numeric tuples: lexicographic, with a strict prefix
comparing smaller than the longer tuple. `sys.version_info > (3, 5)` is
`pyTupleLt [3, 5] version_info`. -/
def pyTupleLt : List Nat → List Nat → Bool
  | [], [] => false
  | [], _ :: _ => true
  | _ :: _, [] => false
  | a :: x, b :: y => if a < b then true else if b < a then false else pyTupleLt x y

/-- Message of the too-old branch of `check_python_version`. -/
def verTooOldMsg : String := "DistPy requires Python version 3.3 or newer.\n"

/-- Message of the too-new branch of `check_python_version`. -/
def verTooNewMsg : String := "Python 3.5 not yet supported.\n"

/-- Model of `check_python_version()`: `sys.version_info < (3, 3)` rejects as too old,
`sys.version_info > (3, 5)` rejects as unsupported, otherwise accepts.
Returns the verdict and the stderr messages it emitted. -/
def check_python_version (env : Env) : Bool × List String :=
  if pyTupleLt env.version_info [3, 3] then (false, [verTooOldMsg])
  else if pyTupleLt [3, 5] env.version_info then (false, [verTooNewMsg])
  else (true, [])

/-- True for the ASCII digits `0`–`9`. -/
def isAsciiDigit (c : Char) : Bool := decide ('0' ≤ c) && decide (c ≤ '9')

/-- ASCII whitespace stripped by Python's `int(str)`. -/
def isPySpace (c : Char) : Bool :=
  c = ' ' || c = '\t' || c = '\n' || c = '\x0d' || c = '\x0b' || c = '\x0c'

/-- Numeric value of a list of ASCII digits. -/
def digitsToNat (l : List Char) : Nat :=
  l.foldl (fun acc c => acc * 10 + (c.toNat - '0'.toNat)) 0

/-- Python's `int(s)` on a string: optional surrounding whitespace, optional
sign, one or more digits; `none` models the `ValueError`. -/
def pyParseInt (s : String) : Option Int :=
  let l := ((s.data.dropWhile isPySpace).reverse.dropWhile isPySpace).reverse
  match l with
  | '-' :: rest =>
    if rest ≠ [] && rest.all isAsciiDigit then some (-(digitsToNat rest : Int))
    else none
  | '+' :: rest =>
    if rest ≠ [] && rest.all isAsciiDigit then some (digitsToNat rest : Int)
    else none
  | rest =>
    if rest ≠ [] && rest.all isAsciiDigit then some (digitsToNat rest : Int)
    else none

/-- The debug-level block of `main`: when `-L` was given, parse the token
with `int(...)`; install the level via `set_debug_level` when
`is_valid_debug_level` accepts it, otherwise warn and leave the level
unchanged (a parse failure warns identically). Returns the resulting
process-wide debug level and the emitted effects. -/
def handleDebug (env : Env) (debug : Option String) (level : Int) :
    Int × List Effect :=
  match debug with
  | none => (level, [])
  | some s =>
    match pyParseInt s with
    | some l =>
      if env.is_valid_debug_level l then (l, [])
      else (level, [Effect.stderrMsg (invalidDebugMsg s)])
    | none => (level, [Effect.stderrMsg (invalidDebugMsg s)])

/-- Model of `main(argv)` after argument parsing: the version gate, the debug-level
block, then exactly one pipeline chosen by the `if genpsd / elif geninc /
else` chain. Returns the exit code, the final debug level, and the effects
in program order. -/
def main (env : Env) (args : Args) (level : Int) :
    Nat × Int × List Effect :=
  let chk := check_python_version env
  if chk.1 then
    let dbg := handleDebug env args.debug level
    let pipeEffs :=
      if args.genpsd then dpyfile_to_pseudofile env args.infile args.psdfile
      else if args.geninc then dpyfile_to_incfiles env args
      else dpyfile_to_pyfile env args.infile args.outfile
    (0, dbg.1, (chk.2.map Effect.stderrMsg) ++ dbg.2 ++ pipeEffs)
  else
    (2, level, chk.2.map Effect.stderrMsg)

/-- The directory part of a path: everything before the last `/`, or `""`
when the path has no `/`. Used to state where a produced file lands. -/
def dirOf (s : String) : String :=
  match rpartitionAux '/' s.data with
  | some p => String.mk p.1
  | none => ""

/-! ### Concrete objects, used to evaluate the theorems on explicit inputs -/

/-- A concrete environment: every parse succeeds with no errors, the Python
generator always returns an AST, and the host runtime is version 3.4.2. -/
def envOk : Env where
  parse := fun _ => ⟨0, 2, ⟨7⟩⟩
  pygen := fun _ _ => some ⟨3⟩
  to_source := fun p => "S" ++ toString p.id
  to_pseudo := fun _ => "psd"
  gen_inc_module := fun _ _ => (⟨1⟩, ⟨2⟩)
  is_valid_debug_level := fun l => decide (0 ≤ l ∧ l ≤ 7)
  version_info := [3, 4, 2]

/-- Like `envOk`, but every parse reports one error (`errcnt = 1`). -/
def envErr : Env := { envOk with parse := fun _ => ⟨1, 0, ⟨7⟩⟩ }

/-- Like `envOk`, but on host runtime version 3.5.0. -/
def env350 : Env := { envOk with version_info := [3, 5, 0] }

/-- Concrete arguments: plain invocation on `foo.dpy`, no flags. -/
def argsDefault : Args :=
  ⟨none, none, false, false, false, false, false, false, false, none, "foo.dpy"⟩

/-- Concrete arguments: plain invocation on `foo.py`, no flags. -/
def argsPyIn : Args :=
  ⟨none, none, false, false, false, false, false, false, false, none, "foo.py"⟩

/-- Concrete arguments: `-i -o out.py foo.dpy`. -/
def argsInc : Args :=
  ⟨some "out.py", none, false, true, false, false, false, false, false, none, "foo.dpy"⟩

/-- Concrete arguments: `-p -i foo.dpy` (both mode flags set). -/
def argsBoth : Args :=
  ⟨none, none, true, true, false, false, false, false, false, none, "foo.dpy"⟩

/-- Concrete arguments: `-L abc foo.dpy` (unparseable debug token). -/
def argsBadDebug : Args :=
  ⟨none, some "abc", false, false, false, false, false, false, false, none, "foo.dpy"⟩

/-! ### Helper lemmas -/

@[simp] theorem filesWritten_nil : filesWritten [] = [] := rfl

@[simp] theorem filesWritten_cons_stderr (m : String) (t : List Effect) :
    filesWritten (Effect.stderrMsg m :: t) = filesWritten t := rfl

@[simp] theorem filesWritten_cons_parse (f : String) (t : List Effect) :
    filesWritten (Effect.parseCall f :: t) = filesWritten t := rfl

@[simp] theorem filesWritten_cons_write (p c : String) (t : List Effect) :
    filesWritten (Effect.fileWrite p c :: t) = (p, c) :: filesWritten t := rfl

@[simp] theorem filesWritten_append (l₁ l₂ : List Effect) :
    filesWritten (l₁ ++ l₂) = filesWritten l₁ ++ filesWritten l₂ :=
  List.filterMap_append l₁ l₂ _

@[simp] theorem parseCalls_nil : parseCalls [] = [] := rfl

@[simp] theorem parseCalls_cons_stderr (m : String) (t : List Effect) :
    parseCalls (Effect.stderrMsg m :: t) = parseCalls t := rfl

@[simp] theorem parseCalls_cons_parse (f : String) (t : List Effect) :
    parseCalls (Effect.parseCall f :: t) = f :: parseCalls t := rfl

@[simp] theorem parseCalls_cons_write (p c : String) (t : List Effect) :
    parseCalls (Effect.fileWrite p c :: t) = parseCalls t := rfl

@[simp] theorem parseCalls_append (l₁ l₂ : List Effect) :
    parseCalls (l₁ ++ l₂) = parseCalls l₁ ++ parseCalls l₂ :=
  List.filterMap_append l₁ l₂ _

theorem dpyast_from_file_fst (env : Env) (f : String) :
    (dpyast_from_file env f).1 =
      if (env.parse f).errcnt = 0 then some (env.parse f).program else none := by
  simp only [dpyast_from_file]
  split <;> simp_all

theorem dpyast_from_file_snd (env : Env) (f : String) :
    (dpyast_from_file env f).2 =
      [Effect.parseCall f,
       Effect.stderrMsg (compiledCountMsg f (env.parse f).errcnt (env.parse f).warncnt)] := by
  simp only [dpyast_from_file]
  split <;> rfl

theorem check_python_version_eq_of_true (env : Env)
    (h : (check_python_version env).1 = true) :
    check_python_version env = (true, []) := by
  unfold check_python_version at h ⊢
  split at h
  · exact absurd h (by simp)
  · split at h
    · exact absurd h (by simp)
    · simp_all [check_python_version]

theorem rpartitionAux_eq_none (sep : Char) (l : List Char) (h : sep ∉ l) :
    rpartitionAux sep l = none := by
  induction l with
  | nil => rfl
  | cons c rest ih =>
    have hc : c ≠ sep := fun hc => h (hc ▸ List.mem_cons_self c rest)
    have hr : sep ∉ rest := fun hr => h (List.mem_cons_of_mem c hr)
    simp [rpartitionAux, ih hr, hc]

theorem rpartitionAux_append_last (sep : Char) (x b : List Char)
    (h : sep ∉ b) : rpartitionAux sep (x ++ sep :: b) = some (x, b) := by
  induction x with
  | nil => simp [rpartitionAux, rpartitionAux_eq_none sep b h]
  | cons c x ih => simp [rpartitionAux, ih]

theorem rpartitionAux_isSome_of_mem (sep : Char) (l : List Char)
    (h : sep ∈ l) : ∃ p, rpartitionAux sep l = some p := by
  induction l with
  | nil => cases h
  | cons c rest ih =>
    by_cases hr : sep ∈ rest
    · obtain ⟨p, hp⟩ := ih hr
      exact ⟨(c :: p.1, p.2), by simp [rpartitionAux, hp]⟩
    · have hc : c = sep := by
        rcases List.mem_cons.mp h with h | h
        · exact h.symm
        · exact absurd h hr
      exact ⟨([], rest), by simp [rpartitionAux, rpartitionAux_eq_none sep rest hr, hc]⟩

theorem rpartitionAux_not_mem_of_eq_none (sep : Char) (l : List Char)
    (h : rpartitionAux sep l = none) : sep ∉ l := by
  intro hm
  obtain ⟨p, hp⟩ := rpartitionAux_isSome_of_mem sep l hm
  rw [hp] at h
  cases h

theorem rpartitionAux_append_none (sep : Char) (x y : List Char)
    (hy : sep ∉ y) (hx : rpartitionAux sep x = none) :
    rpartitionAux sep (x ++ y) = none := by
  apply rpartitionAux_eq_none
  intro hm
  rcases List.mem_append.mp hm with hm | hm
  · exact rpartitionAux_not_mem_of_eq_none sep x hx hm
  · exact hy hm

theorem rpartitionAux_append_no_sep (sep : Char) (x y pb pa : List Char)
    (hy : sep ∉ y) (hx : rpartitionAux sep x = some (pb, pa)) :
    rpartitionAux sep (x ++ y) = some (pb, pa ++ y) := by
  induction x generalizing pb pa with
  | nil => simp [rpartitionAux] at hx
  | cons c x ih =>
    rcases ht : rpartitionAux sep x with _ | ⟨qb, qa⟩
    · by_cases hc : c = sep
      · simp only [rpartitionAux, ht, hc, if_pos] at hx
        obtain ⟨rfl, rfl⟩ := Prod.ext_iff.mp (Option.some.inj hx)
        simp [List.cons_append, rpartitionAux,
              rpartitionAux_append_none sep x y hy ht, hc]
      · simp [rpartitionAux, ht, hc] at hx
    · simp only [rpartitionAux, ht] at hx
      obtain ⟨rfl, rfl⟩ := Prod.ext_iff.mp (Option.some.inj hx)
      simp [List.cons_append, rpartitionAux, ih qb qa ht]

theorem rpartitionAux_append_some (sep : Char) (x y pb pa : List Char)
    (hp : rpartitionAux sep y = some (pb, pa)) :
    rpartitionAux sep (x ++ y) = some (x ++ pb, pa) := by
  induction x with
  | nil => simpa using hp
  | cons c x ih => simp [rpartitionAux, ih]

theorem rpartitionAux_fst_length_lt (sep : Char) (l : List Char)
    (p : List Char × List Char) (h : rpartitionAux sep l = some p) :
    p.1.length < l.length := by
  induction l generalizing p with
  | nil => simp [rpartitionAux] at h
  | cons c rest ih =>
    simp only [rpartitionAux] at h
    rcases hr : rpartitionAux sep rest with _ | q
    · rw [hr] at h
      by_cases hc : c = sep
      · simp [hc] at h
        subst h
        simp
      · simp [hc] at h
    · rw [hr] at h
      simp at h
      subst h
      simpa using ih q hr

@[simp] theorem string_mk_data (s : String) : String.mk s.data = s := rfl

theorem splitFilename_no_sep (s : String) (h : '.' ∉ s.data) :
    splitFilename s = (s, "") := by
  unfold splitFilename rpartition
  rw [rpartitionAux_eq_none '.' s.data h]
  rfl

theorem splitFilename_append (a b : String) (ha : a ≠ "")
    (hb : '.' ∉ b.data) : splitFilename (a ++ "." ++ b) = (a, b) := by
  have hdata : (a ++ "." ++ b).data = a.data ++ '.' :: b.data := by
    simp [String.data_append]
  have hlen : a.length ≠ 0 := by
    intro hl
    apply ha
    cases a with
    | mk l =>
      cases l with
      | nil => rfl
      | cons c t => simp [String.length] at hl
  unfold splitFilename rpartition
  rw [hdata, rpartitionAux_append_last '.' a.data b.data hb]
  simp [hlen]

theorem filesWritten_ite_stderr (P : Prop) [Decidable P] (m : String) :
    filesWritten (if P then [Effect.stderrMsg m] else []) = [] := by
  split <;> rfl

theorem parseCalls_ite_stderr (P : Prop) [Decidable P] (m : String) :
    parseCalls (if P then [Effect.stderrMsg m] else []) = [] := by
  split <;> rfl

theorem filesWritten_ite_stderr_flip (P : Prop) [Decidable P] (m : String) :
    filesWritten (if P then [] else [Effect.stderrMsg m]) = [] := by
  split <;> rfl

theorem parseCalls_ite_stderr_flip (P : Prop) [Decidable P] (m : String) :
    parseCalls (if P then [] else [Effect.stderrMsg m]) = [] := by
  split <;> rfl

theorem dpyfile_to_pyast_err (env : Env) (f : String)
    (h : (env.parse f).errcnt ≠ 0) :
    dpyfile_to_pyast env f =
      (none, (dpyast_from_file env f).2 ++ [Effect.stderrMsg (noDpyAstMsg f)]) := by
  simp only [dpyfile_to_pyast]
  rw [dpyast_from_file_fst, if_neg h]

/-! ### The claims -/

/-- Claim C5: for every input path containing no suffix separator (no `.`),
the derived base name equals the full path and the derived suffix is the
empty string. -/
theorem c5_no_separator_split (s : String) (h : '.' ∉ s.data) :
    splitFilename s = (s, "") :=
  splitFilename_no_sep s h

/-- Witness for C5 at the concrete separator-free path `dirprog`. -/
theorem c5_witness : splitFilename "dirprog" = ("dirprog", "") :=
  c5_no_separator_split "dirprog" (by decide)

/-- Claim C4: whenever the derived suffix equals the host language's own
source suffix `py`, each of the three pipelines emits only the skip warning:
the parser is never invoked and no file is written. -/
theorem c4_py_suffix_skips (env : Env) (filename : String) (out : Option String)
    (args : Args) (h : (splitFilename filename).2 = "py")
    (hargs : args.infile = filename) :
    dpyfile_to_pseudofile env filename out = [Effect.stderrMsg (skipPyMsg filename)]
    ∧ dpyfile_to_pyfile env filename out = [Effect.stderrMsg (skipPyMsg filename)]
    ∧ dpyfile_to_incfiles env args = [Effect.stderrMsg (skipPyMsg filename)]
    ∧ parseCalls [Effect.stderrMsg (skipPyMsg filename)] = []
    ∧ filesWritten [Effect.stderrMsg (skipPyMsg filename)] = [] := by
  subst hargs
  refine ⟨?_, ?_, ?_, rfl, rfl⟩ <;>
    simp [dpyfile_to_pseudofile, dpyfile_to_pyfile, dpyfile_to_incfiles, h]

/-- Witness for C4 at the concrete input `foo.py`. -/
theorem c4_witness :
    dpyfile_to_pseudofile envOk "foo.py" none = [Effect.stderrMsg (skipPyMsg "foo.py")]
    ∧ dpyfile_to_pyfile envOk "foo.py" none = [Effect.stderrMsg (skipPyMsg "foo.py")]
    ∧ dpyfile_to_incfiles envOk argsPyIn = [Effect.stderrMsg (skipPyMsg "foo.py")]
    ∧ parseCalls [Effect.stderrMsg (skipPyMsg "foo.py")] = []
    ∧ filesWritten [Effect.stderrMsg (skipPyMsg "foo.py")] = [] :=
  c4_py_suffix_skips envOk "foo.py" none argsPyIn (by decide) rfl

/-- Claim C2 is false as stated: with input `foo.py` (suffix `py`) and an
explicit `--psdfile custom.da`, the pseudocode pipeline writes nothing at
all — the `py`-suffix skip fires before, and regardless of, the explicit
output path. -/
theorem c2_counterexample :
    (splitFilename "foo.py").2 = "py"
    ∧ filesWritten (dpyfile_to_pseudofile envOk "foo.py" (some "custom.da")) = [] := by
  decide

/-- Claim C2, amended: for every input whose derived suffix is not `py`,
an explicit pseudocode output path forces the pseudocode output to exactly
that path, regardless of the input filename's suffix. -/
theorem c2_amended_psdfile_forces_path (env : Env) (filename out : String)
    (h : (splitFilename filename).2 ≠ "py") :
    filesWritten (dpyfile_to_pseudofile env filename (some out)) =
      [(out, env.to_pseudo (dpyast_from_file env filename).1)] := by
  simp only [dpyfile_to_pseudofile]
  rw [if_neg h]
  simp [dpyast_from_file_snd, filesWritten_ite_stderr, filesWritten_ite_stderr_flip]

/-- Witness for the amended C2 at input `foo.unknownsuffix`, output
`custom.da`. -/
theorem c2_amended_witness :
    filesWritten (dpyfile_to_pseudofile envOk "foo.unknownsuffix" (some "custom.da")) =
      [("custom.da", envOk.to_pseudo (dpyast_from_file envOk "foo.unknownsuffix").1)] :=
  c2_amended_psdfile_forces_path envOk "foo.unknownsuffix" "custom.da" (by decide)

/-- Claim C1 is false as stated: with a parse reporting `errcnt = 1`, the
pseudocode pipeline still writes its output file (`foo.da` here) — it never
gates on the parser's "no result" outcome. -/
theorem c1_counterexample :
    0 < (envErr.parse "foo.dpy").errcnt
    ∧ filesWritten (dpyfile_to_pseudofile envErr "foo.dpy" none) = [("foo.da", "psd")] := by
  decide

/-- Claim C1, amended: when the parser reports `errcnt > 0`, the source and
incremental pipelines write no output file, and `main` still exits with
code 0; the pseudocode pipeline, however, does not gate on the "no result"
outcome: it renders the null AST and writes its output file anyway. -/
theorem c1_amended_parse_error_gate (env : Env) (args : Args) (level : Int)
    (herr : 0 < (env.parse args.infile).errcnt)
    (hv : (check_python_version env).1 = true) :
    filesWritten (dpyfile_to_pyfile env args.infile args.outfile) = []
    ∧ filesWritten (dpyfile_to_incfiles env args) = []
    ∧ (main env args level).1 = 0
    ∧ ((splitFilename args.infile).2 ≠ "py" →
        filesWritten (dpyfile_to_pseudofile env args.infile args.psdfile) =
          [((args.psdfile).getD ((splitFilename args.infile).1 ++ ".da"),
            env.to_pseudo none)]) := by
  have hne : (env.parse args.infile).errcnt ≠ 0 := Nat.pos_iff_ne_zero.mp herr
  refine ⟨?_, ?_, ?_, ?_⟩
  · simp only [dpyfile_to_pyfile]
    by_cases hpy : (splitFilename args.infile).2 = "py"
    · simp [hpy]
    · rw [if_neg hpy, dpyfile_to_pyast_err env args.infile hne]
      simp [dpyast_from_file_snd, filesWritten_ite_stderr, filesWritten_ite_stderr_flip]
  · simp only [dpyfile_to_incfiles]
    by_cases hpy : (splitFilename args.infile).2 = "py"
    · simp [hpy]
    · rw [if_neg hpy, dpyast_from_file_fst, if_neg hne]
      simp [dpyast_from_file_snd, filesWritten_ite_stderr, filesWritten_ite_stderr_flip]
  · simp [main, hv]
  · intro hpy
    simp only [dpyfile_to_pseudofile]
    rw [if_neg hpy, dpyast_from_file_fst, if_neg hne]
    simp [dpyast_from_file_snd, filesWritten_ite_stderr, filesWritten_ite_stderr_flip]

/-- Witness for the amended C1: a one-error parse on `foo.dpy` with no flags
writes nothing in the source and incremental pipelines, exits 0, and the
pseudocode pipeline still writes `foo.da`. -/
theorem c1_amended_witness :
    filesWritten (dpyfile_to_pyfile envErr "foo.dpy" none) = []
    ∧ filesWritten (dpyfile_to_incfiles envErr argsDefault) = []
    ∧ (main envErr argsDefault 0).1 = 0
    ∧ filesWritten (dpyfile_to_pseudofile envErr "foo.dpy" none) =
        [("foo.da", envErr.to_pseudo none)] := by
  have h := c1_amended_parse_error_gate envErr argsDefault 0 (by decide) (by decide)
  exact ⟨h.1, h.2.1, h.2.2.1, h.2.2.2 (by decide)⟩

/-- Claim C8: in incremental mode, whenever the parse yields a non-null AST
(`errcnt = 0`, suffix not `py`), exactly two files are written: the primary
artifact at the explicit output path or `base ++ ".py"`, and the interface
artifact at `base ++ "_inc" ++ ".py"` — a path that never depends on the
explicit output option. -/
theorem c8_incremental_two_files (env : Env) (args : Args)
    (hsuf : (splitFilename args.infile).2 ≠ "py")
    (herr : (env.parse args.infile).errcnt = 0) :
    filesWritten (dpyfile_to_incfiles env args) =
      [((args.outfile).getD ((splitFilename args.infile).1 ++ ".py"),
        env.to_source (env.gen_inc_module (env.parse args.infile).program args).2),
       ((splitFilename args.infile).1 ++ "_inc" ++ ".py",
        env.to_source (env.gen_inc_module (env.parse args.infile).program args).1)] := by
  simp only [dpyfile_to_incfiles]
  rw [if_neg hsuf, dpyast_from_file_fst, if_pos herr]
  simp [dpyast_from_file_snd, filesWritten_ite_stderr, filesWritten_ite_stderr_flip]

/-- Witness for C8: `-i -o out.py foo.dpy` on a clean parse writes exactly
`out.py` and `foo_inc.py`. -/
theorem c8_witness :
    filesWritten (dpyfile_to_incfiles envOk argsInc) =
      [("out.py", "S2"), ("foo_inc.py", "S1")] :=
  c8_incremental_two_files envOk argsInc (by decide) (by decide)

theorem parseCalls_map_stderr (l : List String) :
    parseCalls (l.map Effect.stderrMsg) = [] := by
  induction l with
  | nil => rfl
  | cons m t ih => simpa using ih

theorem filesWritten_map_stderr (l : List String) :
    filesWritten (l.map Effect.stderrMsg) = [] := by
  induction l with
  | nil => rfl
  | cons m t ih => simpa using ih

/-- Claim C3: exactly one of the three pipelines runs per invocation, chosen
by fixed priority: pseudocode flag first, else incremental flag, else the
source pipeline; in particular with both `-p` and `-i` set, only the
pseudocode pipeline runs. The effects of `main` past the debug block are
exactly the selected pipeline's effects. -/
theorem c3_pipeline_dispatch (env : Env) (args : Args) (level : Int)
    (hv : (check_python_version env).1 = true) :
    (main env args level).2.2 =
      (handleDebug env args.debug level).2 ++
        (if args.genpsd then dpyfile_to_pseudofile env args.infile args.psdfile
         else if args.geninc then dpyfile_to_incfiles env args
         else dpyfile_to_pyfile env args.infile args.outfile)
    ∧ (args.genpsd = true →
        (main env args level).2.2 =
          (handleDebug env args.debug level).2 ++
            dpyfile_to_pseudofile env args.infile args.psdfile)
    ∧ (args.genpsd = false → args.geninc = true →
        (main env args level).2.2 =
          (handleDebug env args.debug level).2 ++ dpyfile_to_incfiles env args)
    ∧ (args.genpsd = false → args.geninc = false →
        (main env args level).2.2 =
          (handleDebug env args.debug level).2 ++
            dpyfile_to_pyfile env args.infile args.outfile)
    ∧ (args.genpsd = true ∧ args.geninc = true →
        (main env args level).2.2 =
          (handleDebug env args.debug level).2 ++
            dpyfile_to_pseudofile env args.infile args.psdfile) := by
  have hc := check_python_version_eq_of_true env hv
  refine ⟨by simp [main, hc], ?_, ?_, ?_, ?_⟩
  · intro h
    simp [main, hc, h]
  · intro h1 h2
    simp [main, hc, h1, h2]
  · intro h1 h2
    simp [main, hc, h1, h2]
  · intro h
    simp [main, hc, h.1]

/-- Witness for C3: with both `-p` and `-i` set, `main`'s pipeline effects
are the pseudocode pipeline's. -/
theorem c3_witness :
    (main envOk argsBoth 0).2.2 =
      (handleDebug envOk argsBoth.debug 0).2 ++
        dpyfile_to_pseudofile envOk argsBoth.infile argsBoth.psdfile :=
  (c3_pipeline_dispatch envOk argsBoth 0 (by decide)).2.2.2.2 ⟨rfl, rfl⟩

/-- Claim C6: an unparseable or out-of-range `-L` token leaves the debug
level unchanged and emits exactly one warning; a valid in-range token is
installed, and `main` installs the level and emits the debug-block effects
before any pipeline effect. -/
theorem c6_debug_level_handling (env : Env) (s : String) (prior : Int) :
    (pyParseInt s = none →
      handleDebug env (some s) prior =
        (prior, [Effect.stderrMsg (invalidDebugMsg s)]))
    ∧ (∀ l : Int, pyParseInt s = some l → env.is_valid_debug_level l = false →
        handleDebug env (some s) prior =
          (prior, [Effect.stderrMsg (invalidDebugMsg s)]))
    ∧ (∀ l : Int, pyParseInt s = some l → env.is_valid_debug_level l = true →
        handleDebug env (some s) prior = (l, []))
    ∧ (∀ args : Args, ∀ lvl : Int, (check_python_version env).1 = true →
        ∃ pipeEffs, main env args lvl =
          (0, (handleDebug env args.debug lvl).1,
           (handleDebug env args.debug lvl).2 ++ pipeEffs)) := by
  refine ⟨?_, ?_, ?_, ?_⟩
  · intro h
    simp [handleDebug, h]
  · intro l hl hval
    simp [handleDebug, hl, hval]
  · intro l hl hval
    simp [handleDebug, hl, hval]
  · intro args lvl hv
    have hc := check_python_version_eq_of_true env hv
    exact ⟨(if args.genpsd then dpyfile_to_pseudofile env args.infile args.psdfile
            else if args.geninc then dpyfile_to_incfiles env args
            else dpyfile_to_pyfile env args.infile args.outfile),
           by simp [main, hc]⟩

/-- Witness for C6 at the unparseable token `abc` with prior level 7. -/
theorem c6_witness :
    handleDebug envOk (some "abc") 7 =
      (7, [Effect.stderrMsg (invalidDebugMsg "abc")]) :=
  (c6_debug_level_handling envOk "abc" 7).1 (by decide)

/-- Claim C7: `main` returns exit code 2 iff the host-runtime version
precondition fails; when it fails, the only effects are the version
message — no parser call, no file write, no debug change; in every other
case `main` returns 0. -/
theorem c7_exit_codes (env : Env) (args : Args) (level : Int) :
    ((main env args level).1 = 2 ↔ (check_python_version env).1 = false)
    ∧ ((check_python_version env).1 = false →
        main env args level =
          (2, level, (check_python_version env).2.map Effect.stderrMsg)
        ∧ parseCalls (main env args level).2.2 = []
        ∧ filesWritten (main env args level).2.2 = [])
    ∧ ((check_python_version env).1 = true → (main env args level).1 = 0) := by
  by_cases h : (check_python_version env).1 = true
  · refine ⟨?_, ?_, fun _ => ?_⟩
    · simp [main, h]
    · intro hb
      rw [h] at hb
      cases hb
    · simp [main, h]
  · have hb : (check_python_version env).1 = false := by
      cases hcase : (check_python_version env).1
      · rfl
      · exact absurd hcase h
    refine ⟨by simp [main, hb], fun _ => ⟨by simp [main, hb], ?_, ?_⟩, ?_⟩
    · simp [main, hb, parseCalls_map_stderr]
    · simp [main, hb, filesWritten_map_stderr]
    · intro ht
      rw [ht] at hb
      cases hb

/-- Witness for C7 on a failing version (3.5.0) and on a passing one
(3.4.2). -/
theorem c7_witness :
    main env350 argsDefault 0 =
      (2, 0, (check_python_version env350).2.map Effect.stderrMsg)
    ∧ (main envOk argsDefault 0).1 = 0 :=
  ⟨((c7_exit_codes env350 argsDefault 0).2.1 (by decide)).1,
   (c7_exit_codes envOk argsDefault 0).2.2 (by decide)⟩

theorem pyTupleLt_lt33 (ma mi mc : Nat) :
    pyTupleLt [ma, mi, mc] [3, 3] = true ↔ ma < 3 ∨ (ma = 3 ∧ mi < 3) := by
  simp only [pyTupleLt]
  split_ifs <;> simp <;> omega

theorem pyTupleLt_gt35 (ma mi mc : Nat) :
    pyTupleLt [3, 5] [ma, mi, mc] = true ↔ 3 < ma ∨ (ma = 3 ∧ 5 ≤ mi) := by
  simp only [pyTupleLt]
  split_ifs <;> simp <;> omega

/-- Claim C9 is false as stated: host version 3.5.0 — which the claim's
interval `(3,3) <= v <= (3,5)` admits, since the claim lets only `3.5.x`
with `x > 0` fail — is rejected by `check_python_version` (a 3-component
`version_info` with prefix `(3,5)` compares strictly greater than the
2-tuple `(3,5)` under Python tuple ordering), and `main` exits with 2. -/
theorem c9_counterexample :
    env350.version_info = [3, 5, 0]
    ∧ (check_python_version env350).1 = false
    ∧ (main env350 argsDefault 0).1 = 2 := by
  decide

/-- Claim C9, amended: the version check accepts exactly the versions with
major 3 and minor 3 or 4 (so every 3.5.x, including 3.5.0, fails); whenever
`version_info` compares above `(3,5)` or below `(3,3)`, `main` exits with
code 2 — the precondition is an interval, not a lower bound. -/
theorem c9_amended_version_interval (env : Env) (args : Args) (level : Int)
    (ma mi mc : Nat) (h : env.version_info = [ma, mi, mc]) :
    ((check_python_version env).1 = true ↔ ma = 3 ∧ 3 ≤ mi ∧ mi ≤ 4)
    ∧ (pyTupleLt [3, 5] env.version_info = true → (main env args level).1 = 2)
    ∧ (pyTupleLt env.version_info [3, 3] = true → (main env args level).1 = 2) := by
  have hgate : (check_python_version env).1 = false → (main env args level).1 = 2 := by
    intro hb
    simp [main, hb]
  have hchar : (check_python_version env).1 = true ↔ ma = 3 ∧ 3 ≤ mi ∧ mi ≤ 4 := by
    simp only [check_python_version, h]
    split_ifs with h1 h2
    · rw [pyTupleLt_lt33] at h1
      simp
      omega
    · rw [pyTupleLt_lt33] at h1
      rw [pyTupleLt_gt35] at h2
      simp
      omega
    · rw [pyTupleLt_lt33] at h1
      rw [pyTupleLt_gt35] at h2
      simp
      omega
  refine ⟨hchar, ?_, ?_⟩
  · intro hgt
    apply hgate
    simp only [check_python_version, h]
    rw [h] at hgt
    rw [pyTupleLt_gt35] at hgt
    split_ifs with h1 h2
    · rfl
    · rfl
    · rw [pyTupleLt_gt35] at h2
      exact absurd hgt h2
  · intro hlt
    apply hgate
    simp only [check_python_version, h]
    rw [h] at hlt
    rw [pyTupleLt_lt33] at hlt
    split_ifs with h1 h2
    · rfl
    · rfl
    · rw [pyTupleLt_lt33] at h1
      exact absurd hlt h1

/-- Witness for the amended C9: version 3.4.2 is accepted; versions 3.5.0
and 3.2.9 make `main` exit with 2. -/
theorem c9_amended_witness :
    (3 = 3 ∧ 3 ≤ 4 ∧ 4 ≤ 4)
    ∧ (main env350 argsDefault 0).1 = 2
    ∧ (main { envOk with version_info := [3, 2, 9] } argsDefault 0).1 = 2 :=
  ⟨(c9_amended_version_interval envOk argsDefault 0 3 4 2 rfl).1.mp (by decide),
   (c9_amended_version_interval env350 argsDefault 0 3 5 0 rfl).2.1 (by decide),
   (c9_amended_version_interval { envOk with version_info := [3, 2, 9] }
      argsDefault 0 3 2 9 rfl).2.2 (by decide)⟩

/-- Claim C10 is false as stated: `.v2/prog` has its last `.` inside a
directory component (it is `"" ++ "." ++ "v2/prog"` with no later dot), yet
because the part before the dot is empty the `len(purename) == 0` fixup
makes the whole path the base and the suffix EMPTY — the derived suffix
contains no path separator. -/
theorem c10_counterexample :
    ".v2/prog" = "" ++ "." ++ "v2/prog"
    ∧ '.' ∉ ("v2/prog" : String).data
    ∧ '/' ∈ ("v2/prog" : String).data
    ∧ (splitFilename ".v2/prog").2 = ""
    ∧ '/' ∉ ((splitFilename ".v2/prog").2).data := by
  decide

theorem dirOf_append_no_slash (a y : String) (h : '/' ∉ y.data) :
    dirOf (a ++ y) = dirOf a := by
  unfold dirOf
  rw [String.data_append]
  rcases hx : rpartitionAux '/' a.data with _ | ⟨pb, pa⟩
  · rw [rpartitionAux_append_none '/' a.data y.data h hx]
  · rw [rpartitionAux_append_no_sep '/' a.data y.data pb pa h hx]

theorem dirOf_length_le (s : String) : (dirOf s).data.length ≤ s.data.length := by
  unfold dirOf
  rcases hx : rpartitionAux '/' s.data with _ | ⟨pb, pa⟩
  · simp
  · simpa using (rpartitionAux_fst_length_lt '/' s.data (pb, pa) hx).le

theorem dirOf_append_mem (a y : String) (pb pa : List Char)
    (hp : rpartitionAux '/' y.data = some (pb, pa)) :
    (dirOf (a ++ y)).data = a.data ++ pb := by
  unfold dirOf
  rw [String.data_append, rpartitionAux_append_some '/' a.data y.data pb pa hp]

theorem dpyfile_to_pyast_parseCalls (env : Env) (f : String) :
    parseCalls (dpyfile_to_pyast env f).2 = [f] := by
  simp only [dpyfile_to_pyast]
  rcases hfst : (dpyast_from_file env f).1 with _ | d
  · simp [hfst, dpyast_from_file_snd]
  · rcases hp : env.pygen f d with _ | p <;> simp [hfst, hp, dpyast_from_file_snd]

theorem dpyfile_to_pyfile_parseCalls (env : Env) (f : String)
    (out : Option String) (h : (splitFilename f).2 ≠ "py") :
    parseCalls (dpyfile_to_pyfile env f out) = [f] := by
  simp only [dpyfile_to_pyfile]
  rw [if_neg h]
  rcases hfst : (dpyfile_to_pyast env f).1 with _ | p <;>
    simp [hfst, dpyfile_to_pyast_parseCalls, parseCalls_ite_stderr,
          parseCalls_ite_stderr_flip]

/-- Claim C10, amended: for every path of the shape `a ++ "." ++ b` whose
last `.` lies inside a directory component (`'/' ∈ b`, no later dot) AND
whose part `a` before that dot is non-empty, the derived suffix is `b` and
contains the path separator, the source pipeline emits the non-blocking
unknown-suffix warning and still invokes the parser, the default output path
is `a ++ ".py"`, and that path's directory differs from the input file's
directory. (The original claim, without `a` non-empty, fails: see the
counterexample.) -/
theorem c10_amended_last_dot_in_directory (env : Env) (a b : String)
    (ha : a ≠ "") (hb : '.' ∉ b.data) (hs : '/' ∈ b.data) :
    (splitFilename (a ++ "." ++ b)).2 = b
    ∧ '/' ∈ ((splitFilename (a ++ "." ++ b)).2).data
    ∧ (∃ t, dpyfile_to_pyfile env (a ++ "." ++ b) none =
        Effect.stderrMsg (unknownSuffixMsg b (a ++ "." ++ b)) :: t)
    ∧ parseCalls (dpyfile_to_pyfile env (a ++ "." ++ b) none) = [a ++ "." ++ b]
    ∧ ((env.parse (a ++ "." ++ b)).errcnt = 0 →
        ∀ p, env.pygen (a ++ "." ++ b) (env.parse (a ++ "." ++ b)).program = some p →
          filesWritten (dpyfile_to_pyfile env (a ++ "." ++ b) none) =
            [(a ++ ".py", env.to_source p)])
    ∧ dirOf (a ++ ".py") ≠ dirOf (a ++ "." ++ b) := by
  have hsplit := splitFilename_append a b ha hb
  have hbpy : b ≠ "py" := by
    intro he
    subst he
    exact (by decide : '/' ∉ ("py" : String).data) hs
  have hbdpy : b ≠ "dpy" := by
    intro he
    subst he
    exact (by decide : '/' ∉ ("dpy" : String).data) hs
  have hsuf : (splitFilename (a ++ "." ++ b)).2 ≠ "py" := by
    rw [hsplit]
    exact hbpy
  refine ⟨by rw [hsplit], by rw [hsplit]; exact hs, ?_, ?_, ?_, ?_⟩
  · simp only [dpyfile_to_pyfile, hsplit]
    rw [if_neg hbpy]
    simp only [ne_eq, hbdpy, not_false_eq_true, if_pos]
    rcases (dpyfile_to_pyast env (a ++ "." ++ b)).1 with _ | p
    · exact ⟨(dpyfile_to_pyast env (a ++ "." ++ b)).2, by simp⟩
    · exact ⟨(dpyfile_to_pyast env (a ++ "." ++ b)).2 ++
        [Effect.fileWrite (a ++ ".py") (env.to_source p),
         Effect.stderrMsg (writtenCompiledMsg (a ++ ".py"))], by simp⟩
  · exact dpyfile_to_pyfile_parseCalls env (a ++ "." ++ b) none hsuf
  · intro herr p hp
    have hpyast : dpyfile_to_pyast env (a ++ "." ++ b) =
        (some p, (dpyast_from_file env (a ++ "." ++ b)).2) := by
      simp only [dpyfile_to_pyast]
      rw [dpyast_from_file_fst, if_pos herr]
      simp [hp]
    simp only [dpyfile_to_pyfile, hsplit]
    rw [if_neg hbpy, hpyast]
    simp [dpyast_from_file_snd, filesWritten_ite_stderr, filesWritten_ite_stderr_flip]
  · obtain ⟨⟨pb, pa⟩, hp⟩ := rpartitionAux_isSome_of_mem '/' b.data hs
    intro he
    have h1 : (dirOf (a ++ ".py")).data.length ≤ a.data.length := by
      rw [dirOf_append_no_slash a ".py" (by decide)]
      exact dirOf_length_le a
    have h2 : (dirOf (a ++ "." ++ b)).data = (a ++ ".").data ++ pb :=
      dirOf_append_mem (a ++ ".") b pb pa hp
    rw [he, h2] at h1
    simp [String.data_append] at h1

/-- Witness for the amended C10 at `dir.v2/prog`: suffix `v2/prog`, parser
invoked, default output `dir.py`, whose directory differs from the input's
directory `dir.v2`. -/
theorem c10_amended_witness :
    (splitFilename "dir.v2/prog").2 = "v2/prog"
    ∧ parseCalls (dpyfile_to_pyfile envOk "dir.v2/prog" none) = ["dir.v2/prog"]
    ∧ filesWritten (dpyfile_to_pyfile envOk "dir.v2/prog" none) = [("dir.py", "S3")]
    ∧ dirOf "dir.py" ≠ dirOf "dir.v2/prog" := by
  have h := c10_amended_last_dot_in_directory envOk "dir" "v2/prog"
    (by decide) (by decide) (by decide)
  exact ⟨h.1, h.2.2.2.1, h.2.2.2.2.1 (by decide) ⟨3⟩ (by decide), h.2.2.2.2.2⟩

end DistPy
